import Mathlib

/-!
Verification development for the rollcall attendance tracker.

Shallow embedding of the data model (`src/types.ts`), the spreadsheet
gateway (`src/services/graphService.ts`), the authentication service
(`src/services/authService.ts`) and the submission tracker component
(`src/components/SubmissionTracker.tsx`).  Browser `localStorage` is
modelled as a typed key/value store (`LocalStore`); the Microsoft Graph
remote endpoints are modelled by explicit parameters describing the
outcome of each remote interaction (a `Worksheet` when the Excel path is
reachable, `Except`-valued results for the Teams calls), mirroring the
`try`/`catch` structure of the source.
-/

namespace Rollcall

/-- The five fixed departments (`src/types.ts`, `Department`). -/
inductive Department where
  | animation
  | elearning
  | adnr
  | xrDevelopment
  | other
deriving DecidableEq, Repr, Fintype

/-- Display name of a department, as used for worksheet names, ids and keys. -/
def Department.name : Department → String
  | .animation => "Animation"
  | .elearning => "eLearning"
  | .adnr => "ADNR"
  | .xrDevelopment => "XR Development"
  | .other => "Other"

/-- The `DEPARTMENTS` constant of `src/types.ts` (fixed order). -/
def DEPARTMENTS : List Department :=
  [.animation, .elearning, .adnr, .xrDevelopment, .other]

/-- Type `AttendanceStatus` from `src/types.ts`. -/
inductive AttendanceStatus where
  | present
  | late
  | absent
  | onsite
  | leave
  | sick
deriving DecidableEq, Repr

/-- The string form of a status, as written into spreadsheet cells. -/
def AttendanceStatus.str : AttendanceStatus → String
  | .present => "present"
  | .late => "late"
  | .absent => "absent"
  | .onsite => "onsite"
  | .leave => "leave"
  | .sick => "sick"

/-- Record `Employee` from `src/types.ts`; `status` is optional there. -/
structure Employee where
  id : String
  name : String
  department : Department
  status : Option AttendanceStatus
deriving DecidableEq, Repr

/-- Record `DepartmentSubmission` from `src/types.ts`; timestamps kept as ISO strings. -/
structure DepartmentSubmission where
  department : Department
  submitted : Bool
  submittedAt : Option String
deriving DecidableEq, Repr

/--
Method `GraphService.getExcelColumnLetter` (graphService.ts lines 501-510):
repeatedly takes `columnIndex % 26` as a letter, prepending it, and sets
`columnIndex = Math.floor(columnIndex / 26) - 1`, while `columnIndex >= 0`.
`Math.floor` of a quotient is floor division, hence `Int.fdiv`.
-/
def getExcelColumnLetter (columnIndex : Int) : String :=
  if 0 ≤ columnIndex then
    getExcelColumnLetter (columnIndex.fdiv 26 - 1) ++
      String.mk [Char.ofNat (65 + (columnIndex % 26)).toNat]
  else ""
termination_by (columnIndex + 1).toNat
decreasing_by
  rename_i h
  rw [Int.fdiv_eq_ediv _ (by norm_num)]
  omega

/--
One loop iteration of `getExcelColumnLetter` on the index variable:
`columnIndex = Math.floor(columnIndex / 26) - 1`.
-/
def colStep (columnIndex : Int) : Int :=
  columnIndex.fdiv 26 - 1

/--
Standard bijective base-26 numeral of a positive column number
(`1 ↦ "A"`, `26 ↦ "Z"`, `27 ↦ "AA"`, ...), written from the spec's words
"a base-26, 1-indexed letter scheme (A, B, ... Z, AA, AB, ...) matching
common spreadsheet column-naming".  Used only to compare against
`getExcelColumnLetter`.
-/
def bijBase26 (n : Nat) : String :=
  if n = 0 then ""
  else bijBase26 ((n - 1) / 26) ++ String.mk [Char.ofNat (65 + (n - 1) % 26)]
termination_by n
decreasing_by
  rename_i h
  omega

/-- Spec-side column name of a 0-based index: the bijective base-26 numeral
of `index + 1` (spec: "index 0 → A"). -/
def standardColumnName (index : Nat) : String :=
  bijBase26 (index + 1)

/-- The mock rosters of `GraphService.getMockEmployees` (lines 152-167). -/
def mockNames : Department → List String
  | .animation => ["John Smith", "Sarah Johnson", "Michael Brown", "Emily Davis"]
  | .elearning => ["David Wilson", "Jennifer Taylor", "Robert Martinez", "Lisa Anderson"]
  | .adnr => ["James Thomas", "Patricia White", "Charles Harris", "Jessica Lewis"]
  | .xrDevelopment => ["Daniel Clark", "Nancy Walker", "Paul Hall", "Karen Young"]
  | .other => ["Mark Allen", "Sandra King", "Kevin Wright", "Betty Scott"]

/-- Method `GraphService.getMockEmployees`: maps each mock name with its index to an
employee with id `department-index` and no status. -/
def getMockEmployees (department : Department) : List Employee :=
  (mockNames department).enum.map fun p =>
    { id := department.name ++ "-" ++ toString p.1
      name := p.2
      department := department
      status := none }

/--
The used range of a department worksheet, as returned by the
`.../usedRange` Graph call: a list of rows of cell strings.  Row 0 is the
header row (dates); column 0 holds employee names.  An absent/blank cell
is the empty string.
-/
structure Worksheet where
  values : List (List String)
deriving DecidableEq, Repr

/--
Method `GraphService.getEmployeesByDepartment`, remote branch (lines 120-138):
rows 1.. whose first cell is a non-blank string become employees with id
`department-i` (`i` the row index) and no status.
-/
def employeesFromWorksheet (department : Department) (ws : Worksheet) : List Employee :=
  if ws.values.length > 1 then
    (ws.values.enum.drop 1).filterMap fun p =>
      match p.2.head? with
      | some cell =>
          if cell.trim ≠ "" then
            some { id := department.name ++ "-" ++ toString p.1
                   name := cell
                   department := department
                   status := none }
          else none
      | none => none
  else []

/--
Method `GraphService.getEmployeesByDepartment` (lines 94-148).  `remote` is the
department's worksheet when the whole remote path (auth client, file id,
worksheet lookup, used-range read) succeeds, and `none` when any of those
steps fails; the enclosing `catch` then returns the mock roster.
-/
def getEmployeesByDepartment (remote : Option Worksheet) (department : Department) :
    List Employee :=
  match remote with
  | some ws => employeesFromWorksheet department ws
  | none => getMockEmployees department

/--
Browser `localStorage`, restricted to the typed keys the service uses:
`attendance_` keyed by department and date holds a serialized employee list and
`submissions_` keyed by date a serialized department-submission list.
-/
structure LocalStore where
  attendance : Department → String → Option (List Employee)
  submissions : String → Option (List DepartmentSubmission)

/-- A store with no keys set. -/
def emptyStore : LocalStore :=
  { attendance := fun _ _ => none, submissions := fun _ => none }

/-- Effect of `localStorage.setItem` on an `attendance_` keyed by department and date key. -/
def LocalStore.setAttendance (st : LocalStore) (d : Department) (date : String)
    (es : List Employee) : LocalStore :=
  { st with attendance := fun d' date' =>
      if d' = d ∧ date' = date then some es else st.attendance d' date' }

/-- Effect of `localStorage.setItem` on a `submissions_` keyed by date key. -/
def LocalStore.setSubmissions (st : LocalStore) (date : String)
    (subs : List DepartmentSubmission) : LocalStore :=
  { st with submissions := fun date' =>
      if date' = date then some subs else st.submissions date' }

/-- A single spreadsheet range write: a patch of one cell address with one value. -/
structure CellWrite where
  address : String
  value : String
deriving DecidableEq, Repr

/-- The status string written for an employee cell (line 353), where the
source takes `employee.status` and falls back to the string "absent". -/
def statusCellValue (e : Employee) : String :=
  match e.status with
  | some s => s.str
  | none => "absent"

/--
The row-search loop of `submitAttendance` (lines 336-341): the first
`i ∈ [1, values.length)` whose row has first cell equal to `name`,
returned as the Excel 1-indexed row `i + 1`; `none` when the employee is
not found.
-/
def findEmployeeRow (values : List (List String)) (name : String) : Option Nat :=
  match (values.enum.drop 1).find? (fun p => p.2.head? = some name) with
  | some p => some (p.1 + 1)
  | none => none

/-- The cell write performed for one employee (lines 332-355), `none` when
the employee's row is not found (the loop `continue`s). -/
def employeeCellWrite (values : List (List String)) (todayColumnIndex : Nat)
    (e : Employee) : Option CellWrite :=
  match findEmployeeRow values e.name with
  | some rowIndex =>
      some { address := getExcelColumnLetter todayColumnIndex ++ toString rowIndex
             value := statusCellValue e }
  | none => none

/--
The Excel block of `submitAttendance` (lines 295-372), given the
department worksheet's used range: returns the list of range writes it
performs, in order (date header if today's column is new, one status cell
per found employee, the `Submission Status` label and the timestamp).
-/
def excelSubmitWrites (ws : Worksheet) (today now : String)
    (employees : List Employee) : List CellWrite :=
  let headerRow := ws.values.headD []
  let found := headerRow.findIdx? (fun cell => cell = today)
  let todayColumnIndex := found.getD headerRow.length
  let dateWrites : List CellWrite :=
    match found with
    | some _ => []
    | none => [{ address := getExcelColumnLetter headerRow.length ++ "1", value := today }]
  let statusWrites := employees.filterMap (employeeCellWrite ws.values todayColumnIndex)
  let submissionStatusRowIndex := ws.values.length + 1
  dateWrites ++ statusWrites ++
    [{ address := "A" ++ toString submissionStatusRowIndex, value := "Submission Status" },
     { address := getExcelColumnLetter todayColumnIndex ++
         toString submissionStatusRowIndex, value := now }]

/--
The submissions-list update of `submitAttendance` (lines 392-403):
`findIndex` on the department; if absent, push a new submitted entry,
else overwrite the found entry's `submitted` and `submittedAt`.
-/
def updateSubmissions (subs : List DepartmentSubmission) (d : Department)
    (now : String) : List DepartmentSubmission :=
  match subs.findIdx? (fun s => s.department = d) with
  | none => subs ++ [{ department := d, submitted := true, submittedAt := some now }]
  | some i => subs.set i { department := d, submitted := true, submittedAt := some now }

/-- Result of the local part of `submitAttendance`. -/
structure SubmitResult where
  store : LocalStore
  remoteWrites : List CellWrite
  daySubmissions : List DepartmentSubmission
  summaryAttempted : Bool

/--
Method `submitAttendance` without the Teams summary call (lines 289-408):
the Excel block (write list when the remote path is reachable, nothing
when it fails — the `catch` only logs), then unconditionally the
`localStorage` mirror: the `attendance_..` key gets the employee list
as passed, the `submissions_..` key gets the updated submissions list,
and `summaryAttempted` records the `submissions.every(s => s.submitted)`
check that guards the summary send.
-/
def submitAttendanceCore (st : LocalStore) (remote : Option Worksheet)
    (today now : String) (d : Department) (employees : List Employee) : SubmitResult :=
  let remoteWrites :=
    match remote with
    | some ws => excelSubmitWrites ws today now employees
    | none => []
  let st1 := st.setAttendance d today employees
  let subs0 := (st.submissions today).getD []
  let subs1 := updateSubmissions subs0 d now
  let st2 := st1.setSubmissions today subs1
  { store := st2
    remoteWrites := remoteWrites
    daySubmissions := subs1
    summaryAttempted := subs1.all (fun s => s.submitted) }

/-- All employees gathered from today's `attendance_..` keys of submitted
departments (`sendAttendanceSummaryToTeams`, lines 434-451). -/
def collectAllEmployees (st : LocalStore) (today : String)
    (subs : List DepartmentSubmission) : List Employee :=
  subs.flatMap fun sub =>
    if sub.submitted then ((st.attendance sub.department today).getD []) else []

/-- One department section of the summary message (lines 457-481). -/
def departmentSection (allEmployees : List Employee) (d : Department) : String :=
  let es := allEmployees.filter (fun e => e.department = d)
  let grp := fun (s : AttendanceStatus) =>
    let names := String.intercalate ", "
      ((es.filter (fun e => e.status = some s)).map (fun e => e.name))
    if names = "" then "None" else names
  d.name ++ ": Present: " ++ grp .present ++ "; Late: " ++ grp .late ++
    "; Absent: " ++ grp .absent ++ "; On Leave: " ++ grp .leave ++
    "; Sick: " ++ grp .sick

/-- The summary message body (lines 453-481), department emoji/markdown
decoration elided. -/
def buildSummaryMessage (st : LocalStore) (today : String)
    (subs : List DepartmentSubmission) : String :=
  let allEmployees := collectAllEmployees st today subs
  "Daily Attendance Report - " ++ today ++ " | " ++
    String.intercalate " | " (DEPARTMENTS.map (departmentSection allEmployees))

/--
Method `GraphService.sendAttendanceSummaryToTeams` (lines 424-498).  `teams` is
the combined outcome of getting the authenticated client, the team id and
the channel id; `post` the outcome of posting the message.  Both the inner
and the outer `catch` only log, so every failure is swallowed and the
call returns normally.
-/
def sendAttendanceSummaryToTeams (teams : Except String (String × String))
    (post : Except String Unit) (st : LocalStore) (today : String)
    (subs : List DepartmentSubmission) : Except String Unit :=
  let attempt : Except String Unit := do
    let _ ← teams
    let _msg := buildSummaryMessage st today subs
    let _ ← post
    pure ()
  match attempt with
  | .ok _ => .ok ()
  | .error _ => .ok ()

/--
Method `GraphService.submitAttendance` (lines 289-422): the core local/remote
work, then — when every entry of the freshly written submissions list is
submitted — an awaited summary send whose failure would propagate through
the outer `catch` (which rethrows).  Returns `true` on completion.
-/
def submitAttendance (st : LocalStore) (remote : Option Worksheet)
    (teams : Except String (String × String)) (post : Except String Unit)
    (today now : String) (d : Department) (employees : List Employee) :
    Except String (Bool × SubmitResult) :=
  let r := submitAttendanceCore st remote today now d employees
  let summaryOutcome : Except String Unit :=
    if r.summaryAttempted then
      sendAttendanceSummaryToTeams teams post r.store today r.daySubmissions
    else .ok ()
  match summaryOutcome with
  | .ok _ => .ok (true, r)
  | .error e => .error e

/--
The per-department read of the Excel branch of `getDepartmentSubmissions`
(lines 199-238): a missing worksheet yields an unsubmitted entry; else the
entry is submitted iff the header row contains today's date and the last
row is a `Submission Status` row with a non-blank cell in today's column.
-/
def readDeptSubmission (d : Department) (today : String) (ws? : Option Worksheet) :
    DepartmentSubmission :=
  match ws? with
  | none => { department := d, submitted := false, submittedAt := none }
  | some ws =>
    if ws.values.length > 0 then
      let headerRow := ws.values.headD []
      match headerRow.findIdx? (fun cell => cell = today) with
      | some i =>
          let lastRow := ws.values.getLastD []
          let cell := (lastRow.get? i).getD ""
          if lastRow.head? = some "Submission Status" ∧ cell ≠ "" then
            { department := d, submitted := true, submittedAt := some cell }
          else { department := d, submitted := false, submittedAt := none }
      | none => { department := d, submitted := false, submittedAt := none }
    else { department := d, submitted := false, submittedAt := none }

/--
Method `getMockDepartmentSubmissions` (lines 257-287): a department is submitted
iff its `attendance_` key for the department and today key is set; `mockTime` stands for
the randomized `submittedAt` it fabricates.
-/
def getMockDepartmentSubmissions (st : LocalStore) (today : String)
    (mockTime : Department → String) : List DepartmentSubmission :=
  DEPARTMENTS.map fun d =>
    match st.attendance d today with
    | some _ => { department := d, submitted := true, submittedAt := some (mockTime d) }
    | none => { department := d, submitted := false, submittedAt := none }

/--
Method `GraphService.getDepartmentSubmissions` (lines 169-254): prefer the
today's `submissions_` key when it parses to a non-empty array; else, when
the remote path is reachable (`remote = some f`, giving each department's
worksheet), derive all five entries from the worksheets and cache them in
the store; else fall back to `getMockDepartmentSubmissions`.  Returns the
submissions together with the possibly updated store.
-/
def getDepartmentSubmissions (st : LocalStore) (today : String)
    (remote : Option (Department → Option Worksheet))
    (mockTime : Department → String) :
    List DepartmentSubmission × LocalStore :=
  match st.submissions today with
  | some subs =>
      if subs.length > 0 then (subs, st)
      else fallback
  | none => fallback
where
  fallback : List DepartmentSubmission × LocalStore :=
    match remote with
    | some f =>
        let subs := DEPARTMENTS.map fun d => readDeptSubmission d today (f d)
        (subs, st.setSubmissions today subs)
    | none => (getMockDepartmentSubmissions st today mockTime, st)

/-- Computation `allSubmitted` of `SubmissionTracker` (SubmissionTracker.tsx line 44):
`submissions.every(s => s.submitted)`. -/
def allSubmitted (submissions : List DepartmentSubmission) : Bool :=
  submissions.all (fun s => s.submitted)

/-- Computation `submittedCount` of `SubmissionTracker` (line 45). -/
def submittedCount (submissions : List DepartmentSubmission) : Nat :=
  (submissions.filter (fun s => s.submitted)).length

/-- Computation `totalCount` of `SubmissionTracker` (line 46). -/
def totalCount (submissions : List DepartmentSubmission) : Nat :=
  submissions.length

/-- The claim-side reading of "each of the 5 fixed departments appears with
`submitted = true`". -/
def eachDepartmentSubmitted (submissions : List DepartmentSubmission) : Prop :=
  ∀ d ∈ DEPARTMENTS, ∃ s ∈ submissions, s.department = d ∧ s.submitted = true

instance (submissions : List DepartmentSubmission) :
    Decidable (eachDepartmentSubmitted submissions) := by
  unfold eachDepartmentSubmitted
  infer_instance

/--
A sequence of `submitAttendance` calls on the same calendar day (each step
a department, its submission timestamp and its employee list), threading
the local store and counting how many steps attempted a summary send.
The remote Excel path plays no role in the submissions bookkeeping, so it
is taken as failed (`none`) throughout.
-/
def runSubmits (st : LocalStore) (today : String)
    (steps : List (Department × String × List Employee)) : LocalStore × Nat :=
  match steps with
  | [] => (st, 0)
  | (d, now, emps) :: rest =>
      let r := submitAttendanceCore st none today now d emps
      let next := runSubmits r.store today rest
      (next.1, (if r.summaryAttempted then 1 else 0) + next.2)

/-- Pointwise update of a department flag assignment. -/
def bumpTrue (f : Department → Bool) (d : Department) : Department → Bool :=
  fun x => if x = d then true else f x

/--
Abstract count of summary attempts along a submission sequence: `f` maps
each department to its current submitted flag; a step attempts a summary
iff after marking its department every department's flag is set.
-/
def countAttempts (f : Department → Bool) : List Department → Nat
  | [] => 0
  | d :: rest =>
      (if DEPARTMENTS.all (bumpTrue f d) then 1 else 0) +
        countAttempts (bumpTrue f d) rest

/-- Error taxonomy of `AuthService.login`; `interactionConflict` is the
"Authentication interaction already in progress" error (line 93). -/
inductive LoginError where
  | interactionConflict
  | other (msg : String)
deriving DecidableEq, Repr

/-- The mutable fields of `AuthService` relevant to `login` (lines 4-16). -/
structure AuthState where
  interactionInProgress : Bool
  activeAccount : Option String
deriving DecidableEq, Repr

/-- Outcomes of the MSAL library calls `login` makes, treated as an
opaque external collaborator. -/
structure MsalOutcomes where
  accounts : List String
  silent : Except String String
  redirect : Except String Unit
  popup : Except String String
deriving Repr

/--
Method `AuthService.login` (authService.ts lines 83-179), with MSAL behavior
given by `m`.  Inside the outer `try`: the interaction-in-progress check
(throwing the conflict error, line 93); the silent path for an existing
account; then the interactive flow under the mutual-exclusion flag, with
redirect first and popup fallback, the flag cleared in `finally`.  The
outer `catch` (lines 173-178) sets `interactionInProgress = false` and
rethrows — also on the conflict path, clearing a flag set by another
in-flight flow.
-/
def login (s : AuthState) (m : MsalOutcomes) :
    AuthState × Except LoginError (Option String) :=
  if s.interactionInProgress then
    ({ s with interactionInProgress := false }, .error .interactionConflict)
  else
    match m.accounts with
    | account :: _ =>
        let s1 := { s with activeAccount := some account }
        match m.silent with
        | .ok token => (s1, .ok (some token))
        | .error _ => interactive s1
    | [] => interactive s
where
  interactive (s1 : AuthState) : AuthState × Except LoginError (Option String) :=
    match m.redirect with
    | .ok _ => ({ s1 with interactionInProgress := false }, .ok none)
    | .error _ =>
        match m.popup with
        | .ok account =>
            ({ s1 with interactionInProgress := false, activeAccount := some account },
             .ok (some account))
        | .error msg =>
            ({ s1 with interactionInProgress := false }, .error (.other msg))

/-! ## Helper lemmas -/

theorem getExcelColumnLetter_nonneg {i : Int} (h : 0 ≤ i) :
    getExcelColumnLetter i =
      getExcelColumnLetter (i.fdiv 26 - 1) ++
        String.mk [Char.ofNat (65 + (i % 26)).toNat] := by
  rw [getExcelColumnLetter]
  simp [h]

theorem getExcelColumnLetter_neg {i : Int} (h : i < 0) :
    getExcelColumnLetter i = "" := by
  rw [getExcelColumnLetter]
  simp [Int.not_le.mpr h]

theorem bijBase26_pos {n : Nat} (h : n ≠ 0) :
    bijBase26 n =
      bijBase26 ((n - 1) / 26) ++ String.mk [Char.ofNat (65 + (n - 1) % 26)] := by
  rw [bijBase26]
  simp [h]

theorem bijBase26_zero : bijBase26 0 = "" := by
  rw [bijBase26]
  rfl

theorem getExcelColumnLetter_eq_standard (i : Nat) :
    getExcelColumnLetter (i : Int) = standardColumnName i := by
  induction i using Nat.strong_induction_on with
  | _ i ih =>
    have hfd : (i : Int).fdiv 26 = ((i / 26 : Nat) : Int) := by
      rw [Int.fdiv_eq_ediv _ (by norm_num)]
      omega
    rw [getExcelColumnLetter_nonneg (by positivity), standardColumnName,
      bijBase26_pos (Nat.succ_ne_zero i)]
    congr 1
    by_cases h26 : i / 26 = 0
    · rw [getExcelColumnLetter_neg (by rw [hfd, h26]; norm_num)]
      have h1 : (i + 1 - 1) / 26 = 0 := by omega
      rw [h1, bijBase26_zero]
    · rw [show (i : Int).fdiv 26 - 1 = ((i / 26 - 1 : Nat) : Int) by rw [hfd]; omega,
        ih (i / 26 - 1) (by omega), standardColumnName]
      congr 1
      omega

theorem colStep_lt {i : Int} (h : 0 ≤ i) : colStep i < i := by
  unfold colStep
  rw [Int.fdiv_eq_ediv _ (by norm_num)]
  omega

theorem colStep_reaches_neg_aux :
    ∀ (k : Nat) (i : Int), (i + 1).toNat ≤ k → ∃ n : Nat, colStep^[n] i < 0 := by
  intro k
  induction k with
  | zero =>
    intro i h
    exact ⟨0, by simpa using by omega⟩
  | succ k ih =>
    intro i h
    by_cases hi : i < 0
    · exact ⟨0, hi⟩
    · have hstep : (colStep i + 1).toNat ≤ k := by
        unfold colStep
        rw [Int.fdiv_eq_ediv _ (by norm_num)]
        omega
      obtain ⟨n, hn⟩ := ih (colStep i) hstep
      exact ⟨n + 1, by rwa [Function.iterate_succ_apply]⟩

theorem colStep_reaches_neg (i : Int) : ∃ n : Nat, colStep^[n] i < 0 :=
  colStep_reaches_neg_aux ((i + 1).toNat) i le_rfl

/-! ## Claim theorems -/

/--
C5.  `getExcelColumnLetter` agrees with the standard bijective base-26
column naming at every non-negative index, and in particular maps
0 to "A", 25 to "Z", 26 to "AA", 27 to "AB", and 701 to "ZZ".
-/
theorem c5_column_letter_standard :
    (∀ i : Nat, getExcelColumnLetter (i : Int) = standardColumnName i) ∧
    getExcelColumnLetter 0 = "A" ∧
    getExcelColumnLetter 25 = "Z" ∧
    getExcelColumnLetter 26 = "AA" ∧
    getExcelColumnLetter 27 = "AB" ∧
    getExcelColumnLetter 701 = "ZZ" := by
  have base : ∀ i : Int, 0 ≤ i → i < 26 →
      getExcelColumnLetter i = String.mk [Char.ofNat (65 + i.toNat)] := by
    intro i h0 h26
    rw [getExcelColumnLetter_nonneg h0,
      getExcelColumnLetter_neg (by rw [Int.fdiv_eq_ediv _ (by norm_num)]; omega)]
    have : (65 + i % 26).toNat = 65 + i.toNat := by omega
    rw [this]
    rfl
  refine ⟨getExcelColumnLetter_eq_standard, ?_, ?_, ?_, ?_, ?_⟩
  · rw [base 0 (by norm_num) (by norm_num)]
    rfl
  · rw [base 25 (by norm_num) (by norm_num)]
    rfl
  · rw [getExcelColumnLetter_nonneg (by norm_num)]
    norm_num [Int.fdiv]
    rw [base 0 (by norm_num) (by norm_num)]
    rfl
  · rw [getExcelColumnLetter_nonneg (by norm_num)]
    norm_num [Int.fdiv]
    rw [base 0 (by norm_num) (by norm_num)]
    rfl
  · rw [getExcelColumnLetter_nonneg (by norm_num)]
    norm_num [Int.fdiv]
    rw [base 25 (by norm_num) (by norm_num)]
    rfl

/--
C10.  The column-letter loop is total: each iteration strictly decreases
the index (when it is still non-negative) until it drops below 0, from
every integer start the iteration reaches a negative index in finitely
many steps, and every negative input yields the empty string.
-/
theorem c10_column_letter_total :
    (∀ i : Int, i < 0 → getExcelColumnLetter i = "") ∧
    (∀ i : Int, 0 ≤ i → colStep i < i) ∧
    (∀ i : Int, ∃ n : Nat, colStep^[n] i < 0) :=
  ⟨fun _ h => getExcelColumnLetter_neg h, fun _ h => colStep_lt h, colStep_reaches_neg⟩

theorem c10_column_letter_total_witness :
    getExcelColumnLetter (-1) = "" ∧ colStep 0 < 0 ∧ ∃ n : Nat, colStep^[n] 702 < 0 :=
  ⟨c10_column_letter_total.1 (-1) (by norm_num),
   c10_column_letter_total.2.1 0 le_rfl,
   c10_column_letter_total.2.2 702⟩

/--
C7.  When the remote call fails, `getEmployeesByDepartment` returns the
built-in mock roster: a non-empty list of 4 employees, each with the
requested department.
-/
theorem c7_mock_fallback_roster :
    ∀ d : Department,
      0 < (getEmployeesByDepartment none d).length ∧
      (getEmployeesByDepartment none d).length = 4 ∧
      (getEmployeesByDepartment none d).all (fun e => e.department == d) = true := by
  intro d
  cases d <;> exact ⟨by decide, by decide, by decide⟩

/--
C8.  A second interactive sign-in while one is in progress fails with the
`InteractionConflict` error — but, contrary to the claim, the outer
`catch` of `login` also clears the interaction-in-progress flag set by
the first flow: the flag is `false` after the error is raised.
-/
theorem c8_conflict_clears_flag :
    ∀ (m : MsalOutcomes) (a : Option String),
      login { interactionInProgress := true, activeAccount := a } m =
        ({ interactionInProgress := false, activeAccount := a },
         Except.error LoginError.interactionConflict) := by
  intro m a
  rfl

theorem updateSubmissions_nil (d : Department) (now : String) :
    updateSubmissions [] d now =
      [{ department := d, submitted := true, submittedAt := some now }] := rfl

theorem updateSubmissions_cons (s : DepartmentSubmission)
    (rest : List DepartmentSubmission) (d : Department) (now : String) :
    updateSubmissions (s :: rest) d now =
      if s.department = d then
        { department := d, submitted := true, submittedAt := some now } :: rest
      else s :: updateSubmissions rest d now := by
  unfold updateSubmissions
  rw [List.findIdx?_cons]
  by_cases h : s.department = d
  · simp [h]
  · rw [if_neg (by simp [h]), List.findIdx?_succ]
    cases hf : rest.findIdx? (fun x => decide (x.department = d)) with
    | none => simp [hf, h]
    | some j => simp [hf, h, List.set_cons_succ]

theorem mem_updateSubmissions (subs : List DepartmentSubmission) (d : Department)
    (now : String) :
    ({ department := d, submitted := true, submittedAt := some now } :
      DepartmentSubmission) ∈ updateSubmissions subs d now := by
  induction subs with
  | nil => rw [updateSubmissions_nil]; exact List.mem_singleton_self _
  | cons s rest ih =>
    rw [updateSubmissions_cons]
    by_cases h : s.department = d
    · simp [h]
    · simp [h, ih]

theorem countP_updateSubmissions (subs : List DepartmentSubmission) (d : Department)
    (now : String) (h : subs.countP (fun s => s.department = d) ≤ 1) :
    (updateSubmissions subs d now).countP (fun s => s.department = d) = 1 := by
  induction subs with
  | nil => rw [updateSubmissions_nil]; simp [List.countP_cons]
  | cons s rest ih =>
    rw [updateSubmissions_cons]
    rw [List.countP_cons] at h
    by_cases hs : s.department = d
    · rw [decide_eq_true hs, if_pos rfl] at h
      rw [if_pos hs, List.countP_cons]
      have hnew : decide ((DepartmentSubmission.mk d true (some now)).department = d) =
          true := decide_eq_true rfl
      rw [hnew, if_pos rfl]
      omega
    · rw [decide_eq_false hs, if_neg Bool.false_ne_true, Nat.add_zero] at h
      rw [if_neg hs, List.countP_cons, decide_eq_false hs,
        if_neg Bool.false_ne_true, Nat.add_zero]
      exact ih h

theorem sendAttendanceSummaryToTeams_ok (teams : Except String (String × String))
    (post : Except String Unit) (st : LocalStore) (today : String)
    (subs : List DepartmentSubmission) :
    sendAttendanceSummaryToTeams teams post st today subs = .ok () := by
  unfold sendAttendanceSummaryToTeams
  cases teams <;> cases post <;> rfl

theorem submitAttendance_eq (st : LocalStore) (remote : Option Worksheet)
    (teams : Except String (String × String)) (post : Except String Unit)
    (today now : String) (d : Department) (employees : List Employee) :
    submitAttendance st remote teams post today now d employees =
      .ok (true, submitAttendanceCore st remote today now d employees) := by
  unfold submitAttendance
  simp [sendAttendanceSummaryToTeams_ok]

theorem submitCore_store_submissions (st : LocalStore) (remote : Option Worksheet)
    (today now : String) (d : Department) (employees : List Employee) :
    (submitAttendanceCore st remote today now d employees).store.submissions today =
      some (updateSubmissions ((st.submissions today).getD []) d now) := by
  unfold submitAttendanceCore LocalStore.setSubmissions LocalStore.setAttendance
  simp

theorem submitCore_store_attendance (st : LocalStore) (remote : Option Worksheet)
    (today now : String) (d : Department) (employees : List Employee) :
    (submitAttendanceCore st remote today now d employees).store.attendance d today =
      some employees := by
  unfold submitAttendanceCore LocalStore.setSubmissions LocalStore.setAttendance
  simp

/--
C9.  The summary send never raises: both its `catch` blocks only log, so
it returns normally for every combination of remote outcomes; hence
`submitAttendance`, which `await`s it after persisting the attendance
record, always completes successfully (returns `true`).
-/
theorem c9_summary_never_raises :
    ∀ (teams : Except String (String × String)) (post : Except String Unit)
      (st st' : LocalStore) (remote : Option Worksheet)
      (today subs_today now : String) (subs : List DepartmentSubmission)
      (d : Department) (employees : List Employee),
      sendAttendanceSummaryToTeams teams post st subs_today subs = .ok () ∧
      submitAttendance st' remote teams post today now d employees =
        .ok (true, submitAttendanceCore st' remote today now d employees) := by
  intro teams post st st' remote today subs_today now subs d employees
  exact ⟨sendAttendanceSummaryToTeams_ok .., submitAttendance_eq ..⟩

/--
C1.  After `submitAttendance` for department `d` on the current day —
whatever the remote outcomes, in particular when every Excel write fails
(`remote = none`) — `getDepartmentSubmissions` reports `d` as submitted:
the submission is always mirrored into the local store, and the non-empty
local store is preferred.
-/
theorem c1_submit_then_get_reports_submitted :
    ∀ (st : LocalStore) (remote : Option Worksheet)
      (teams : Except String (String × String)) (post : Except String Unit)
      (remoteSubs : Option (Department → Option Worksheet))
      (mockTime : Department → String) (today now : String)
      (d : Department) (employees : List Employee),
      ∃ r : SubmitResult,
        submitAttendance st remote teams post today now d employees = .ok (true, r) ∧
        ∃ s ∈ (getDepartmentSubmissions r.store today remoteSubs mockTime).1,
          s.department = d ∧ s.submitted = true := by
  intro st remote teams post remoteSubs mockTime today now d employees
  refine ⟨submitAttendanceCore st remote today now d employees,
    submitAttendance_eq .., ?_⟩
  have hsubs := submitCore_store_submissions st remote today now d employees
  have hmem := mem_updateSubmissions ((st.submissions today).getD []) d now
  have hlen : 0 < (updateSubmissions ((st.submissions today).getD []) d now).length :=
    List.length_pos_of_mem hmem
  unfold getDepartmentSubmissions
  rw [hsubs]
  simp only [hlen, if_pos]
  exact ⟨_, hmem, rfl, rfl⟩

/--
C4.  Submitting twice for the same department on the same day leaves
exactly one entry for that department in the day's stored submissions
list (given the invariant that the pre-state holds at most one entry for
it, as every state the code itself produces does), and that entry carries
the second call's timestamp.
-/
theorem c4_idempotent_submission :
    ∀ (st : LocalStore) (remote1 remote2 : Option Worksheet)
      (teams1 teams2 : Except String (String × String))
      (post1 post2 : Except String Unit) (today now1 now2 : String)
      (d : Department) (employees1 employees2 : List Employee),
      ((st.submissions today).getD []).countP (fun s => s.department = d) ≤ 1 →
      ∃ r1 r2 : SubmitResult,
        submitAttendance st remote1 teams1 post1 today now1 d employees1 =
          .ok (true, r1) ∧
        submitAttendance r1.store remote2 teams2 post2 today now2 d employees2 =
          .ok (true, r2) ∧
        ((r2.store.submissions today).getD []).countP
          (fun s => s.department = d) = 1 ∧
        ({ department := d, submitted := true, submittedAt := some now2 } :
          DepartmentSubmission) ∈ (r2.store.submissions today).getD [] := by
  intro st remote1 remote2 teams1 teams2 post1 post2 today now1 now2 d employees1
    employees2 hcount
  refine ⟨submitAttendanceCore st remote1 today now1 d employees1,
    submitAttendanceCore
      (submitAttendanceCore st remote1 today now1 d employees1).store
      remote2 today now2 d employees2,
    submitAttendance_eq .., submitAttendance_eq .., ?_, ?_⟩
  all_goals
    rw [submitCore_store_submissions, submitCore_store_submissions,
      Option.getD_some, Option.getD_some]
  · exact countP_updateSubmissions _ d now2
      (le_of_eq (countP_updateSubmissions _ d now1 hcount))
  · exact mem_updateSubmissions _ d now2

theorem c4_idempotent_submission_witness :
    ((emptyStore.submissions "2025-01-06").getD []).countP
      (fun s => s.department = Department.animation) ≤ 1 ∧
    ∃ r1 r2 : SubmitResult,
      submitAttendance emptyStore none (.error "offline") (.error "offline")
        "2025-01-06" "08:00" Department.animation [] = .ok (true, r1) ∧
      submitAttendance r1.store none (.error "offline") (.error "offline")
        "2025-01-06" "09:00" Department.animation [] = .ok (true, r2) ∧
      ((r2.store.submissions "2025-01-06").getD []).countP
        (fun s => s.department = Department.animation) = 1 ∧
      ({ department := Department.animation, submitted := true,
         submittedAt := some "09:00" } : DepartmentSubmission) ∈
        (r2.store.submissions "2025-01-06").getD [] :=
  ⟨by decide,
   c4_idempotent_submission emptyStore none none (.error "offline") (.error "offline")
     (.error "offline") (.error "offline") "2025-01-06" "08:00" "09:00"
     Department.animation [] [] (by decide)⟩

theorem mem_DEPARTMENTS (d : Department) : d ∈ DEPARTMENTS := by
  cases d <;> decide

/--
C2 counterexample.  The tracker computes `allSubmitted` as
`submissions.every(s => s.submitted)` over whatever list it has: on a
day list holding a single submitted department, `allSubmitted` is `true`
although the other four departments do not appear at all, refuting the
claimed equivalence for arbitrary submission lists.
-/
theorem c2_counterexample :
    allSubmitted
      [{ department := Department.animation, submitted := true, submittedAt := none }] =
      true ∧
    ¬ eachDepartmentSubmitted
      [{ department := Department.animation, submitted := true, submittedAt := none }] := by
  constructor
  · decide
  · decide

/--
C2 amended.  `allSubmitted` is true iff every entry of the submissions
list has `submitted = true`; only when the list contains exactly one
entry per each of the 5 fixed departments is this equivalent to every
one of the 5 departments appearing with `submitted = true`.
-/
theorem c2_allSubmitted_amended :
    ∀ subs : List DepartmentSubmission,
      (allSubmitted subs = true ↔ ∀ s ∈ subs, s.submitted = true) ∧
      ((∀ d ∈ DEPARTMENTS, ∃ s ∈ subs, s.department = d) →
        (subs.map (fun s => s.department)).Nodup →
        (allSubmitted subs = true ↔ eachDepartmentSubmitted subs)) := by
  intro subs
  have hall : allSubmitted subs = true ↔ ∀ s ∈ subs, s.submitted = true := by
    unfold allSubmitted
    exact List.all_eq_true
  refine ⟨hall, fun hcov hnodup => ?_⟩
  constructor
  · intro h d hd
    obtain ⟨s, hs, hsd⟩ := hcov d hd
    exact ⟨s, hs, hsd, hall.mp h s hs⟩
  · intro hds
    refine hall.mpr fun s hs => ?_
    obtain ⟨t, ht, htd, hts⟩ := hds s.department (mem_DEPARTMENTS _)
    have hst : t = s := List.inj_on_of_nodup_map hnodup ht hs htd
    rw [← hst]
    exact hts

theorem c2_allSubmitted_amended_witness :
    (∀ d ∈ DEPARTMENTS,
      ∃ s ∈ [({ department := Department.animation, submitted := true,
                submittedAt := none } : DepartmentSubmission),
             { department := Department.elearning, submitted := true,
               submittedAt := none },
             { department := Department.adnr, submitted := true, submittedAt := none },
             { department := Department.xrDevelopment, submitted := true,
               submittedAt := none },
             { department := Department.other, submitted := true,
               submittedAt := none }], s.department = d) ∧
    (allSubmitted
        [({ department := Department.animation, submitted := true,
            submittedAt := none } : DepartmentSubmission),
         { department := Department.elearning, submitted := true, submittedAt := none },
         { department := Department.adnr, submitted := true, submittedAt := none },
         { department := Department.xrDevelopment, submitted := true,
           submittedAt := none },
         { department := Department.other, submitted := true,
           submittedAt := none }] = true ↔
      eachDepartmentSubmitted
        [{ department := Department.animation, submitted := true, submittedAt := none },
         { department := Department.elearning, submitted := true, submittedAt := none },
         { department := Department.adnr, submitted := true, submittedAt := none },
         { department := Department.xrDevelopment, submitted := true,
           submittedAt := none },
         { department := Department.other, submitted := true, submittedAt := none }]) :=
  ⟨by decide,
   (c2_allSubmitted_amended _).2 (by decide) (by decide)⟩

/--
C6 counterexample.  `submitAttendance` persists the raw employee list to
the `attendance_..` key: an employee submitted with an unset status is
stored locally with the status still unset, not as "absent".
-/
theorem c6_counterexample :
    (submitAttendanceCore emptyStore none "2025-01-06" "08:00" Department.animation
        [{ id := "Animation-0", name := "John Smith",
           department := Department.animation, status := none }]).store.attendance
        Department.animation "2025-01-06" =
      some [{ id := "Animation-0", name := "John Smith",
              department := Department.animation, status := none }] ∧
    (((submitAttendanceCore emptyStore none "2025-01-06" "08:00" Department.animation
        [{ id := "Animation-0", name := "John Smith",
           department := Department.animation, status := none }]).store.attendance
        Department.animation "2025-01-06").getD []).all
      (fun e => e.status == some AttendanceStatus.absent) = false := by
  constructor
  · decide
  · decide

/--
C6 amended.  For an employee with unset status, "absent" is recorded only
in the remote cell write (where `employee.status` falls back to the string
"absent"): every cell write
`employeeCellWrite` emits carries `statusCellValue`, which is "absent"
exactly when the status is unset; the locally persisted attendance record
instead stores the employee list as passed, statuses unchanged.
-/
theorem c6_status_default_amended :
    (∀ (values : List (List String)) (todayColumnIndex : Nat) (e : Employee)
        (w : CellWrite),
        employeeCellWrite values todayColumnIndex e = some w →
        w.value = statusCellValue e) ∧
    (∀ e : Employee, e.status = none → statusCellValue e = "absent") ∧
    (∀ (st : LocalStore) (remote : Option Worksheet) (today now : String)
        (d : Department) (employees : List Employee),
        (submitAttendanceCore st remote today now d employees).store.attendance
          d today = some employees) := by
  refine ⟨?_, ?_, ?_⟩
  · intro values todayColumnIndex e w hw
    unfold employeeCellWrite at hw
    cases hrow : findEmployeeRow values e.name with
    | some r =>
        rw [hrow] at hw
        injection hw with hw
        rw [← hw]
    | none =>
        rw [hrow] at hw
        cases hw
  · intro e he
    unfold statusCellValue
    rw [he]
  · intro st remote today now d employees
    exact submitCore_store_attendance st remote today now d employees

theorem c6_status_default_amended_witness :
    employeeCellWrite [[""], ["John Smith"]] 1
        { id := "Animation-0", name := "John Smith",
          department := Department.animation, status := none } =
      some { address := getExcelColumnLetter 1 ++ toString 2, value := "absent" } ∧
    ({ address := getExcelColumnLetter 1 ++ toString 2,
       value := "absent" } : CellWrite).value =
      statusCellValue
        { id := "Animation-0", name := "John Smith",
          department := Department.animation, status := none } ∧
    statusCellValue
      { id := "Animation-0", name := "John Smith",
        department := Department.animation, status := none } = "absent" ∧
    (submitAttendanceCore emptyStore none "2025-01-06" "08:00" Department.animation
        []).store.attendance Department.animation "2025-01-06" = some [] := by
  have h1 : employeeCellWrite [[""], ["John Smith"]] 1
      { id := "Animation-0", name := "John Smith",
        department := Department.animation, status := none } =
      some { address := getExcelColumnLetter 1 ++ toString 2, value := "absent" } := rfl
  exact ⟨h1, c6_status_default_amended.1 _ _ _ _ h1,
    c6_status_default_amended.2.1 _ rfl,
    c6_status_default_amended.2.2 emptyStore none "2025-01-06" "08:00"
      Department.animation []⟩

theorem updateSubmissions_mapForm (f : Department → Bool) (g : Department → Option String)
    (d : Department) (now : String) :
    updateSubmissions (DEPARTMENTS.map fun x =>
        { department := x, submitted := f x, submittedAt := g x }) d now =
      DEPARTMENTS.map fun x =>
        { department := x, submitted := bumpTrue f d x,
          submittedAt := if x = d then some now else g x } := by
  cases d <;> simp [DEPARTMENTS, updateSubmissions_cons, bumpTrue]

theorem all_submitted_mapForm (f : Department → Bool) (g : Department → Option String) :
    (DEPARTMENTS.map fun x =>
        ({ department := x, submitted := f x, submittedAt := g x } :
          DepartmentSubmission)).all (fun s => s.submitted) =
      DEPARTMENTS.all f := by
  simp [DEPARTMENTS]

theorem runSubmits_counts (today : String) :
    ∀ (steps : List (Department × String × List Employee)) (f : Department → Bool)
      (g : Department → Option String) (st : LocalStore),
      st.submissions today = some (DEPARTMENTS.map fun x =>
        { department := x, submitted := f x, submittedAt := g x }) →
      (runSubmits st today steps).2 = countAttempts f (steps.map fun p => p.1) := by
  intro steps
  induction steps with
  | nil => intro f g st _; rfl
  | cons step rest ih =>
    intro f g st h
    obtain ⟨d, now, emps⟩ := step
    have hday : (submitAttendanceCore st none today now d emps).daySubmissions =
        DEPARTMENTS.map (fun x =>
          { department := x, submitted := bumpTrue f d x,
            submittedAt := if x = d then some now else g x }) := by
      show updateSubmissions ((st.submissions today).getD []) d now = _
      rw [h, Option.getD_some, updateSubmissions_mapForm]
    have hstore := submitCore_store_submissions st none today now d emps
    rw [h, Option.getD_some, updateSubmissions_mapForm] at hstore
    have hrec := ih (bumpTrue f d) (fun x => if x = d then some now else g x) _ hstore
    have hatt : (submitAttendanceCore st none today now d emps).summaryAttempted =
        DEPARTMENTS.all (bumpTrue f d) := by
      show (submitAttendanceCore st none today now d emps).daySubmissions.all
        (fun s => s.submitted) = _
      rw [hday, all_submitted_mapForm]
    show (if (submitAttendanceCore st none today now d emps).summaryAttempted
        then 1 else 0) +
      (runSubmits (submitAttendanceCore st none today now d emps).store today rest).2 =
      countAttempts f ((d, now, emps).1 :: rest.map fun p => p.1)
    rw [hatt, hrec]
    rfl

theorem bumpTrue_mem (p : List Department) (d : Department) :
    bumpTrue (fun x => decide (x ∈ p)) d = fun x => decide (x ∈ p ++ [d]) := by
  funext x
  by_cases hx : x = d <;> simp [bumpTrue, hx]

theorem card_five_of_cover {l : List Department} (hcov : ∀ x : Department, x ∈ l)
    (hnd : l.Nodup) : 5 ≤ l.length := by
  have h1 : (Finset.univ : Finset Department) ⊆ l.toFinset :=
    fun x _ => List.mem_toFinset.mpr (hcov x)
  have h2 := Finset.card_le_card h1
  rw [List.toFinset_card_of_nodup hnd, Finset.card_univ] at h2
  have h3 : Fintype.card Department = 5 := rfl
  omega

theorem countAttempts_eq_zero :
    ∀ (ds p : List Department), (p ++ ds).Nodup → (p ++ ds).length ≤ 4 →
      countAttempts (fun x => decide (x ∈ p)) ds = 0 := by
  intro ds
  induction ds with
  | nil => intro p _ _; rfl
  | cons d rest ih =>
    intro p hnd hlen
    show (if DEPARTMENTS.all (bumpTrue (fun x => decide (x ∈ p)) d) then 1 else 0) +
      countAttempts (bumpTrue (fun x => decide (x ∈ p)) d) rest = 0
    rw [bumpTrue_mem]
    have hall : DEPARTMENTS.all (fun x => decide (x ∈ p ++ [d])) = false := by
      cases hc : DEPARTMENTS.all (fun x => decide (x ∈ p ++ [d])) with
      | false => rfl
      | true =>
        exfalso
        have hcov : ∀ x : Department, x ∈ p ++ [d] := fun x =>
          of_decide_eq_true (List.all_eq_true.mp hc x (mem_DEPARTMENTS x))
        have hsub : (p ++ [d]).Sublist (p ++ d :: rest) :=
          List.Sublist.append_left
            (List.cons_sublist_cons.mpr (List.nil_sublist rest)) p
        have hnd' : (p ++ [d]).Nodup := hnd.sublist hsub
        have hfive := card_five_of_cover hcov hnd'
        simp [List.length_append] at hfive hlen
        omega
    rw [hall]
    simp only [Bool.false_eq_true, if_false, Nat.zero_add]
    have hrw : (p ++ [d]) ++ rest = p ++ d :: rest := by
      rw [List.append_assoc, List.singleton_append]
    refine ih (p ++ [d]) ?_ ?_ <;> rw [hrw]
    · exact hnd
    · exact hlen

theorem countAttempts_append (b : List Department) :
    ∀ (a : List Department) (f : Department → Bool),
      countAttempts f (a ++ b) =
        countAttempts f a + countAttempts (a.foldl bumpTrue f) b := by
  intro a
  induction a with
  | nil => intro f; simp [countAttempts]
  | cons d rest ih =>
    intro f
    show (if DEPARTMENTS.all (bumpTrue f d) then 1 else 0) +
        countAttempts (bumpTrue f d) (rest ++ b) = _
    rw [ih (bumpTrue f d)]
    show _ = (if DEPARTMENTS.all (bumpTrue f d) then 1 else 0) +
        countAttempts (bumpTrue f d) rest +
      countAttempts (rest.foldl bumpTrue (bumpTrue f d)) b
    rw [Nat.add_assoc]

theorem foldl_bumpTrue_mem :
    ∀ (ds p : List Department),
      ds.foldl bumpTrue (fun x => decide (x ∈ p)) =
        fun x => decide (x ∈ p ++ ds) := by
  intro ds
  induction ds with
  | nil => intro p; funext x; simp
  | cons d rest ih =>
    intro p
    show rest.foldl bumpTrue (bumpTrue (fun x => decide (x ∈ p)) d) = _
    rw [bumpTrue_mem, ih (p ++ [d]), List.append_assoc, List.singleton_append]

/--
C3 counterexample.  On a day whose local submissions list starts empty
(no department has submitted), the stored list only ever contains the
departments that have already submitted — all with `submitted = true` —
so `submissions.every(s => s.submitted)` holds after every single
submission: with 4 of the 5 departments submitting, a summary send is
attempted 4 times (not 0), and after the 5th it has been attempted 5
times (not exactly once).
-/
theorem c3_counterexample :
    (runSubmits emptyStore "2025-01-06"
      [(Department.animation, "08:00", []), (Department.elearning, "08:10", []),
       (Department.adnr, "08:20", []),
       (Department.xrDevelopment, "08:30", [])]).2 = 4 ∧
    (runSubmits emptyStore "2025-01-06"
      [(Department.animation, "08:00", []), (Department.elearning, "08:10", []),
       (Department.adnr, "08:20", []), (Department.xrDevelopment, "08:30", []),
       (Department.other, "08:40", [])]).2 = 5 := by
  constructor
  · decide
  · decide

/--
C3 amended.  When the day's stored submissions list starts with all 5
departments present and unsubmitted (as a successful remote read caches
it), the claimed behavior holds: after any 4 distinct departments submit
no summary send has been attempted, and when the remaining 5th department
then submits, a summary send is attempted exactly once.  (From an empty
local store, by contrast, every submission attempts a send, as the
counterexample shows.)
-/
theorem c3_summary_once_amended :
    ∀ (ds : List Department) (d5 : Department) (times : Department → String)
      (emps : Department → List Employee) (today : String),
      ds.Nodup → ds.length = 4 → d5 ∉ ds →
      (runSubmits (emptyStore.setSubmissions today (DEPARTMENTS.map fun x =>
          { department := x, submitted := false, submittedAt := none })) today
        (ds.map fun d => (d, times d, emps d))).2 = 0 ∧
      (runSubmits (emptyStore.setSubmissions today (DEPARTMENTS.map fun x =>
          { department := x, submitted := false, submittedAt := none })) today
        ((ds ++ [d5]).map fun d => (d, times d, emps d))).2 = 1 := by
  intro ds d5 times emps today hnd hlen hd5
  have hstore : (emptyStore.setSubmissions today (DEPARTMENTS.map fun x =>
      { department := x, submitted := false, submittedAt := none })).submissions
        today =
      some (DEPARTMENTS.map fun x =>
        { department := x,
          submitted := (fun y => decide (y ∈ ([] : List Department))) x,
          submittedAt := (fun _ => (none : Option String)) x }) := by
    simp [LocalStore.setSubmissions]
  have hcomp : ((fun p : Department × String × List Employee => p.1) ∘
      fun d => (d, times d, emps d)) = id := rfl
  have hmap1 : ((ds.map fun d => (d, times d, emps d)).map fun p => p.1) = ds := by
    rw [List.map_map, hcomp, List.map_id]
  have hmap2 : (((ds ++ [d5]).map fun d => (d, times d, emps d)).map fun p => p.1) =
      ds ++ [d5] := by
    rw [List.map_map, hcomp, List.map_id]
  have hzero : countAttempts (fun y => decide (y ∈ ([] : List Department))) ds = 0 :=
    countAttempts_eq_zero ds [] (by simpa using hnd) (by simpa using le_of_eq hlen)
  constructor
  · rw [runSubmits_counts today _ _ _ _ hstore, hmap1, hzero]
  · rw [runSubmits_counts today _ _ _ _ hstore, hmap2,
      countAttempts_append [d5] ds _, hzero, foldl_bumpTrue_mem ds [],
      List.nil_append]
    have hnd5 : (ds ++ [d5]).Nodup := by
      rw [List.nodup_append]
      exact ⟨hnd, List.nodup_singleton _,
        fun a ha hb => hd5 ((List.mem_singleton.mp hb) ▸ ha)⟩
    have hcov : ∀ x : Department, x ∈ ds ++ [d5] := by
      have hcard : (ds ++ [d5]).toFinset = Finset.univ :=
        Finset.eq_univ_of_card _ (by
          rw [List.toFinset_card_of_nodup hnd5]
          simp [hlen]
          rfl)
      intro x
      exact List.mem_toFinset.mp (hcard ▸ Finset.mem_univ x)
    show 0 + countAttempts (fun x => decide (x ∈ ds)) [d5] = 1
    have hall : DEPARTMENTS.all (bumpTrue (fun x => decide (x ∈ ds)) d5) = true := by
      rw [bumpTrue_mem]
      exact List.all_eq_true.mpr fun x _ => decide_eq_true (hcov x)
    show 0 + ((if DEPARTMENTS.all (bumpTrue (fun x => decide (x ∈ ds)) d5)
        then 1 else 0) + countAttempts _ []) = 1
    rw [hall]
    rfl

theorem c3_summary_once_amended_witness :
    ([Department.animation, Department.elearning, Department.adnr,
      Department.xrDevelopment] : List Department).Nodup ∧
    ([Department.animation, Department.elearning, Department.adnr,
      Department.xrDevelopment] : List Department).length = 4 ∧
    Department.other ∉ ([Department.animation, Department.elearning,
      Department.adnr, Department.xrDevelopment] : List Department) ∧
    ((runSubmits (emptyStore.setSubmissions "2025-01-06" (DEPARTMENTS.map fun x =>
          { department := x, submitted := false, submittedAt := none })) "2025-01-06"
        ([Department.animation, Department.elearning, Department.adnr,
          Department.xrDevelopment].map fun d => (d, "08:00", []))).2 = 0 ∧
      (runSubmits (emptyStore.setSubmissions "2025-01-06" (DEPARTMENTS.map fun x =>
          { department := x, submitted := false, submittedAt := none })) "2025-01-06"
        (([Department.animation, Department.elearning, Department.adnr,
           Department.xrDevelopment] ++ [Department.other]).map
          fun d => (d, "08:00", []))).2 = 1) :=
  ⟨by decide, by decide, by decide,
   c3_summary_once_amended
     [Department.animation, Department.elearning, Department.adnr,
      Department.xrDevelopment]
     Department.other (fun _ => "08:00") (fun _ => []) "2025-01-06"
     (by decide) (by decide) (by decide)⟩

end Rollcall
